import Mathlib

/-!
Verification of the MoLing capability registry and lifecycle orchestrator
(repository gojue/moling) against its specification.

The Go sources are shallowly embedded: every definition below mirrors a
named function of the repository (file and line references in the doc
comments). External effects (filesystem reads, chromedp calls, JSON
marshalling, wall-clock timing) enter as explicit oracle parameters, so
each embedded function is a pure, executable Lean function.
-/

namespace Moling

/-- Outcome of a Go call that can also panic: `ok` mirrors a nil error,
`err` a non-nil error, and `panicked` a runtime panic. -/
inductive Outcome (α : Type) where
  | ok (a : α)
  | err (e : String)
  | panicked (msg : String)
deriving Repr, DecidableEq

/-- Whether an `Outcome` is a nil-error return (neither error nor panic). -/
def Outcome.isOk {α : Type} : Outcome α → Bool
  | .ok _ => true
  | _ => false

/-- Minimal model of a decoded JSON value (`map[string]interface{}` entries):
only the object / non-object distinction and the primitive kinds matter to
the embedded code. -/
inductive Json where
  | obj (fields : List (String × Json))
  | str (s : String)
  | num (n : Int)
  | boolean (b : Bool)
  | null
deriving Repr

/-- Go map lookup on an association list (first binding wins; the embedded
maps keep keys unique, mirroring Go map semantics). -/
def lookupStr {α : Type} (m : List (String × α)) (k : String) : Option α :=
  match m with
  | [] => none
  | (k2, v) :: rest => if k2 = k then some v else lookupStr rest k

/-- Embeds `RegisterServ` (pkg/services/register.go:26-29):
`serviceLists[n] = f` on a Go map, i.e. overwrite the binding for `n` if it
exists, otherwise add it. -/
def registerServ {α : Type} (reg : List (String × α)) (n : String) (f : α) :
    List (String × α) :=
  match reg with
  | [] => [(n, f)]
  | (k, v) :: rest => if k = n then (n, f) :: rest else (k, v) :: registerServ rest n f

/-- Number of bindings a registry holds for a given name. -/
def countKey {α : Type} (reg : List (String × α)) (n : String) : Nat :=
  (reg.filter (fun kv => kv.1 = n)).length

/-- Embeds `ServiceList` (pkg/services/register.go:32-34): returns the full
registry map. -/
def serviceList {α : Type} (reg : List (String × α)) : List (String × α) := reg

/-- Dynamic behaviour of one provider, abstracting the provider-specific
bodies that `initSingleService` calls through the `abstract.Service`
interface: its `Name()`, the result of `LoadConfig` on a given settings
object, and the result of `Init()`. -/
structure SvcBehavior where
  svcName : String
  loadConfigRes : List (String × Json) → Except String Unit
  initRes : Except String Unit

/-- Observable startup events of the orchestrator: a provider instance was
constructed by its factory, its `LoadConfig` was invoked, its `Init`
returned nil. -/
inductive InitEvent where
  | constructed (name : String)
  | loadConfigCalled (name : String)
  | initOk (name : String)
deriving Repr, DecidableEq

/-- Embeds the configuration-section extraction of `initSingleService`
(cli/cmd/root.go=register.go part, lines 271-282): the section is used only
when the decoded config is non-nil, the service name is a present key, and
the value type-asserts to `map[string]interface{}`. -/
def configLookupSection (configJson : Option (List (String × Json)))
    (serviceType : String) : Option (List (String × Json)) :=
  match configJson with
  | none => none
  | some cj =>
    match lookupStr cj serviceType with
    | some (Json.obj fields) => some fields
    | _ => none

/-- Embeds `initSingleService` (register.go source, lines 264-289): create
the instance via the factory, load its config section when one exists, then
`Init()`; each failure is wrapped with a phase message and the service name
and returned. The event list records what was run. -/
def initSingleService (serviceType : String) (factory : Except String SvcBehavior)
    (configJson : Option (List (String × Json))) :
    List InitEvent × Except String SvcBehavior :=
  match factory with
  | .error e =>
    ([], .error ("failed to create service " ++ serviceType ++ ": " ++ e))
  | .ok svc =>
    match configLookupSection configJson serviceType with
    | some settings =>
      match svc.loadConfigRes settings with
      | .error e =>
        ([.constructed serviceType, .loadConfigCalled svc.svcName],
         .error ("failed to load config for service " ++ svc.svcName ++ ": " ++ e))
      | .ok _ =>
        match svc.initRes with
        | .error e =>
          ([.constructed serviceType, .loadConfigCalled svc.svcName],
           .error ("failed to initialize service " ++ svc.svcName ++ ": " ++ e))
        | .ok _ =>
          ([.constructed serviceType, .loadConfigCalled svc.svcName, .initOk svc.svcName],
           .ok svc)
    | none =>
      match svc.initRes with
      | .error e =>
        ([.constructed serviceType],
         .error ("failed to initialize service " ++ svc.svcName ++ ": " ++ e))
      | .ok _ =>
        ([.constructed serviceType, .initOk svc.svcName], .ok svc)

/-- Modelled from the spec: `utils.StringInSlice` is called by
`initServices` but the `utils` package is not under `src/`. Per the spec
(§6, the module selection is "a single comma-separated list of provider
names"), it is a plain membership test of a string in a string slice. -/
def stringInSlice (s : String) (xs : List String) : Bool :=
  xs.contains s

/-- Character-level core of `strings.Split(s, ",")`: splitting an empty
input yields one empty field, and every comma ends the current field. -/
def splitCommaChars : List Char → List (List Char)
  | [] => [[]]
  | c :: rest =>
    if c = ',' then [] :: splitCommaChars rest
    else
      match splitCommaChars rest with
      | g :: gs => (c :: g) :: gs
      | [] => [[c]]

/-- Embeds `strings.Split(s, ",")` as used by `initServices`: in
particular `"all"` splits to `["all"]` and `""` splits to `[""]`. -/
def splitComma (s : String) : List String :=
  (splitCommaChars s.toList).map (fun cs => String.mk cs)

/-- Embeds the module-list computation of `initServices` (register.go
source, lines 293-296): the list stays empty exactly when the module string
equals "Browser"; otherwise it is the comma-split of the module string. -/
def moduleListOf (module : String) : List String :=
  if module ≠ "Browser" then splitComma module else []

/-- Embeds the per-provider filter of `initServices` (register.go source,
lines 303-313): with a non-empty module list, providers whose name is not
in the list are skipped. -/
def moduleSelects (module : String) (name : String) : Bool :=
  let ml := moduleListOf module
  decide (ml.length = 0) || stringInSlice name ml

/-- Iteration core of `initServices` (register.go source, lines 301-325):
walk the registry in iteration order, skip unselected providers, run
`initSingleService`, and return the first error, aborting the walk. -/
def initServicesGo (module : String) (configJson : Option (List (String × Json))) :
    List (String × Except String SvcBehavior) →
    List InitEvent × Except String (List SvcBehavior)
  | [] => ([], .ok [])
  | (name, factory) :: rest =>
    if moduleSelects module name then
      match initSingleService name factory configJson with
      | (ev, .error e) => (ev, .error e)
      | (ev, .ok svc) =>
        let r := initServicesGo module configJson rest
        (ev ++ r.1,
         match r.2 with
         | .error e => .error e
         | .ok svcs => .ok (svc :: svcs))
    else
      initServicesGo module configJson rest

/-- Embeds `initServices` (register.go source, lines 292-326). -/
def initServices (module : String)
    (registry : List (String × Except String SvcBehavior))
    (configJson : Option (List (String × Json))) :
    List InitEvent × Except String (List SvcBehavior) :=
  initServicesGo module configJson registry

/-- Embeds the startup path of `mlsCommandFunc` (cli/cmd/root.go:117-121):
the error of `initServices` is returned to the process entry point
unchanged. -/
def processStartup (module : String)
    (registry : List (String × Except String SvcBehavior))
    (configJson : Option (List (String × Json))) :
    Except String (List SvcBehavior) :=
  (initServices module registry configJson).2

/-- Names of the providers the run constructed, in construction order. -/
def constructedNames (events : List InitEvent) : List String :=
  events.filterMap (fun e =>
    match e with
    | .constructed n => some n
    | _ => none)

/-- Embeds the constant `BrowserPromptDefault` (browser config source,
lines 26-59), a Go raw string literal. -/
def browserPromptDefault : String :=
  "\nYou are an AI-powered browser automation assistant capable of performing a wide range of web interactions and debugging tasks. Your capabilities include:\n\n1. **Navigation**: Navigate to any specified URL to load web pages.\n\n2. **Screenshot Capture**: Take full-page screenshots or capture specific elements using CSS selectors, with customizable dimensions (default: 1700x1100 pixels).\n\n3. **Element Interaction**:\n   - Click on elements identified by CSS selectors\n   - Hover over specified elements\n   - Fill input fields with provided values\n   - Select options in dropdown menus\n\n4. **JavaScript Execution**:\n   - Run arbitrary JavaScript code in the browser context\n   - Evaluate scripts and return results\n\n5. **Debugging Tools**:\n   - Enable/disable JavaScript debugging mode\n   - Set breakpoints at specific script locations (URL + line number + optional column/condition)\n   - Remove existing breakpoints by ID\n   - Pause and resume script execution\n   - Retrieve current call stack when paused\n\nFor all actions requiring element selection, you must use precise CSS selectors. When capturing screenshots, you can specify either the entire page or target specific elements. For debugging operations, you can precisely control execution flow and inspect runtime behavior.\n\nPlease provide clear instructions including:\n- The specific action you want performed\n- Required parameters (URLs, selectors, values, etc.)\n- Any optional parameters (dimensions, conditions, etc.)\n- Expected outcomes where relevant\n\nYou should confirm actions before execution when dealing with sensitive operations or destructive commands. Report back with clear status updates, success/failure indicators, and any relevant output or captured data.\n"

/-- Embeds `BrowserConfig` (browser config source, lines 61-73). -/
structure BrowserConfig where
  promptFile : String
  prompt : String
  headless : Bool
  timeout : Int
  proxy : String
  userAgent : String
  defaultLanguage : String
  urlTimeout : Int
  selectorQueryTimeout : Int
  dataPath : String
  browserDataPath : String
deriving Repr, DecidableEq

/-- Embeds `BrowserConfig.Check` (browser config source, lines 75-94). The
`fs` oracle stands for `os.ReadFile`: `none` means the read failed. The Go
method mutates the receiver (setting `prompt`) and returns an error; here
the updated configuration is returned on success. -/
def BrowserConfig.check (fs : String → Option String) (cfg : BrowserConfig) :
    Except String BrowserConfig :=
  let cfg := { cfg with prompt := browserPromptDefault }
  if cfg.timeout ≤ (0 : Int) then .error "timeout must be greater than 0"
  else if cfg.urlTimeout ≤ (0 : Int) then .error "URL timeout must be greater than 0"
  else if cfg.selectorQueryTimeout ≤ (0 : Int) then
    .error "selector Query timeout must be greater than 0"
  else if cfg.promptFile ≠ "" then
    match fs cfg.promptFile with
    | none => .error ("failed to read prompt file:" ++ cfg.promptFile)
    | some content => .ok { cfg with prompt := content }
  else .ok cfg

/-- Embeds `NewBrowserConfig` (browser config source, lines 98-108):
constructor defaults; `PromptFile` and `prompt` keep the Go zero value "".
`tmpDataPath` stands for `filepath.Join(os.TempDir(), ".moling", "data")`. -/
def newBrowserConfig (tmpDataPath : String) : BrowserConfig :=
  { promptFile := ""
    prompt := ""
    headless := false
    timeout := 30
    proxy := ""
    userAgent := "Mozilla/5.0 (Macintosh; Intel Mac OS X 10_15_7) AppleWebKit/537.36 (KHTML, like Gecko) Chrome/134.0.0.0 Safari/537.36"
    defaultLanguage := "en-US"
    urlTimeout := 10
    selectorQueryTimeout := 20
    dataPath := tmpDataPath
    browserDataPath := "" }

/-- Lifecycle-relevant state of a `BrowserServer` (pkg/services/browser.go:45-51):
whether the two `context.CancelFunc` fields have been assigned (a Go nil
function field is `false` here). -/
structure BrowserState where
  cancelAllocSet : Bool
  cancelChromeSet : Bool
deriving Repr, DecidableEq

/-- State of a freshly constructed `BrowserServer` (`NewBrowserServer`,
pkg/services/browser.go:54-77): neither cancel function is assigned. -/
def newBrowserState : BrowserState :=
  { cancelAllocSet := false, cancelChromeSet := false }

/-- Embeds the lifecycle effect of `BrowserServer.Init`
(pkg/services/browser.go:80-119): `initBrowser` and `CreateDirectory` are
filesystem calls, passed as oracles; only when both succeed are
`cancelAlloc` and `cancelChrome` assigned (lines 114-119). An early error
return leaves both unassigned. -/
def browserInit (s : BrowserState) (initBrowserRes createDirRes : Except String Unit) :
    BrowserState × Except String Unit :=
  match initBrowserRes with
  | .error e => (s, .error ("failed to initialize browser: " ++ e))
  | .ok _ =>
    match createDirRes with
    | .error e => (s, .error ("failed to create data directory: " ++ e))
    | .ok _ =>
      ({ s with cancelAllocSet := true, cancelChromeSet := true }, .ok ())

/-- Embeds `BrowserServer.Close` (pkg/services/browser.go:864-872):
`bs.cancelAlloc()` and `bs.cancelChrome()` are called unconditionally;
calling a nil Go function value panics. When both are assigned, the result
is the result of `chromedp.Cancel` (oracle `chromedpCancelRes`). -/
def browserClose (s : BrowserState) (chromedpCancelRes : Except String Unit) :
    Outcome Unit :=
  if s.cancelAllocSet = false then
    .panicked "runtime error: invalid memory address or nil pointer dereference"
  else if s.cancelChromeSet = false then
    .panicked "runtime error: invalid memory address or nil pointer dereference"
  else
    match chromedpCancelRes with
    | .ok _ => .ok ()
    | .error e => .err e

/-- Capability collections of an `MLService` (pkg/services/service.go:95-105):
resources, resource templates and notification handlers are Go maps keyed
by descriptor; prompts and tools are ordered slices. Handlers are kept as
string tags. -/
structure SvcCollections where
  resources : List (String × String)
  resourceTemplates : List (String × String)
  prompts : List String
  tools : List String
  notificationHandlers : List (String × String)
deriving Repr, DecidableEq

/-- Collections of a service fresh out of `NewMLService`
(pkg/services/service.go:79-92): all empty. -/
def newMLServiceCollections : SvcCollections :=
  { resources := [], resourceTemplates := [], prompts := [], tools := [],
    notificationHandlers := [] }

/-- Embeds `MLService.AddPrompt` (pkg/services/service.go:150-154):
appends the entry to the prompts slice. -/
def addPrompt (c : SvcCollections) (p : String) : SvcCollections :=
  { c with prompts := c.prompts ++ [p] }

/-- Sequence of `AddPrompt` registrations, in order. -/
def registerPrompts (c : SvcCollections) (ps : List String) : SvcCollections :=
  ps.foldl addPrompt c

/-- Calls `loadService` makes on the protocol endpoint (`server.MCPServer`). -/
inductive LoadAction where
  | addResource (key : String)
  | addResourceTemplate (key : String)
  | addTools (ts : List String)
  | addNotificationHandler (key : String)
  | addPromptTo (p : String)
deriving Repr, DecidableEq

/-- Embeds `MoLingServer.loadService` (server source, lines 84-110): copy
resources, then resource templates, then tools (one `AddTools` call), then
notification handlers, then prompts, in that textual order. -/
def loadService (srv : SvcCollections) : List LoadAction :=
  (srv.resources.map (fun r => LoadAction.addResource r.1))
  ++ (srv.resourceTemplates.map (fun rt => LoadAction.addResourceTemplate rt.1))
  ++ [LoadAction.addTools srv.tools]
  ++ (srv.notificationHandlers.map (fun n => LoadAction.addNotificationHandler n.1))
  ++ (srv.prompts.map (fun p => LoadAction.addPromptTo p))

/-- Position of an endpoint call in the fixed copy order of `loadService`. -/
def loadKind : LoadAction → Nat
  | .addResource _ => 0
  | .addResourceTemplate _ => 1
  | .addTools _ => 2
  | .addNotificationHandler _ => 3
  | .addPromptTo _ => 4

/-- Prompts pushed to the endpoint by a call sequence, in call order. -/
def promptsAdded (acts : List LoadAction) : List String :=
  acts.filterMap (fun a =>
    match a with
    | .addPromptTo p => some p
    | _ => none)

/-- Embeds `BrowserServer.Config` (pkg/services/browser.go:874-882):
`json.Marshal(bs.config)` is the oracle; a marshal error yields the literal
empty-object string. -/
def browserServerConfigStr (marshalRes : Except String String) : String :=
  match marshalRes with
  | .error _ => "{}"
  | .ok s => s

/-- Embeds `MoLingConfig` (pkg/config/config.go:32-51), restricted to the
fields the configuration document addresses (the six json-tagged fields). -/
structure MoLingConfigData where
  configFile : String
  basePath : String
  version : String
  listenAddr : String
  debug : Bool
  module : String
deriving Repr, DecidableEq

/-- Embeds `MoLingConfig.Check` (pkg/config/config.go:53-55): it
unconditionally panics with "not implemented yet". -/
def moLingConfigCheck : Outcome MoLingConfigData :=
  .panicked "not implemented yet"

/-- Modelled from the spec: `utils.MergeJSONToStruct` is not under `src/`.
Per §4.3, each struct field with a corresponding key in the map is
overwritten when the JSON kind matches the declared kind; unknown keys are
ignored; a malformed value fails the merge (the spec leaves abort-vs-skip
open, §9; the aborting choice is taken here). Applied to the json-tagged
fields of `MoLingConfig`. -/
def mergeField (cfg : MoLingConfigData) (kv : String × Json) :
    Except String MoLingConfigData :=
  match kv with
  | ("config_file", Json.str s) => .ok { cfg with configFile := s }
  | ("config_file", _) => .error "config_file: cannot merge value into string field"
  | ("base_path", Json.str s) => .ok { cfg with basePath := s }
  | ("base_path", _) => .error "base_path: cannot merge value into string field"
  | ("version", Json.str s) => .ok { cfg with version := s }
  | ("version", _) => .error "version: cannot merge value into string field"
  | ("listen_addr", Json.str s) => .ok { cfg with listenAddr := s }
  | ("listen_addr", _) => .error "listen_addr: cannot merge value into string field"
  | ("debug", Json.boolean b) => .ok { cfg with debug := b }
  | ("debug", _) => .error "debug: cannot merge value into bool field"
  | ("module", Json.str s) => .ok { cfg with module := s }
  | ("module", _) => .error "module: cannot merge value into string field"
  | (_, _) => .ok cfg

/-- Modelled from the spec: fold of `mergeField` over the raw map, see
`mergeField`. An empty map is a no-op merge (§4.3 edge case). -/
def mergeJSONToStruct (cfg : MoLingConfigData) (fields : List (String × Json)) :
    Except String MoLingConfigData :=
  match fields with
  | [] => .ok cfg
  | kv :: rest =>
    match mergeField cfg kv with
    | .error e => .error e
    | .ok cfg2 => mergeJSONToStruct cfg2 rest

/-- Embeds `MLService.LoadConfig` (pkg/services/service.go:221-228): merge
the raw fields into the typed configuration, return the merge error if any,
otherwise return `MoLingConfig.Check()` - which panics. -/
def mlServiceLoadConfig (cfg : MoLingConfigData) (jsonData : List (String × Json)) :
    Outcome MoLingConfigData :=
  match mergeJSONToStruct cfg jsonData with
  | .error e => .err e
  | .ok _ => moLingConfigCheck

/-- Embeds `MoLingConfig.String` (pkg/config/config.go:65-67) on the
modelled fields: the `fmt.Sprintf` serialization used by
`MLService.Config` (pkg/services/service.go:211-213), which cannot fail. -/
def moLingConfigString (cfg : MoLingConfigData) : String :=
  "ConfigFile: " ++ cfg.configFile ++ ", BasePath: " ++ cfg.basePath
  ++ ", Version: " ++ cfg.version ++ ", ListenAddr: " ++ cfg.listenAddr
  ++ ", Debug: " ++ (if cfg.debug then "true" else "false")
  ++ ", Module: " ++ cfg.module

/-- Observable shutdown actions of `shutdownServices` and
`waitForShutdownSignal` (cli/cmd/root.go:176-250). -/
inductive ShutAction where
  | closeIssued (name : String)
  | closeLoggedErr (name : String) (e : String)
  | closeLoggedOk (name : String)
  | ctxCancelled
  | logForcedTimeout
  | logGraceful
  | pidFileRemoved
deriving Repr, DecidableEq

/-- Behaviour of one `Close()` goroutine (cli/cmd/root.go:226-233): the
closer is invoked; `none` models a `Close()` that never returns (no
completion is ever logged), `some r` a `Close()` returning `r`, whose error
is logged per-provider, or whose success is logged. -/
def closerEvents (nb : String × Option (Except String Unit)) : List ShutAction :=
  match nb.2 with
  | none => [.closeIssued nb.1]
  | some (.error e) => [.closeIssued nb.1, .closeLoggedErr nb.1 e]
  | some (.ok _) => [.closeIssued nb.1, .closeLoggedOk nb.1]

/-- Whether every closer returns at all: `wg.Wait()` (cli/cmd/root.go:237)
can only complete, and `done` only close, if no `Close()` hangs forever. -/
def allClosersReturn (closers : List (String × Option (Except String Unit))) : Bool :=
  closers.all (fun nb => nb.2.isSome)

/-- Embeds `shutdownServices` (cli/cmd/root.go:218-250): every closer is
spawned concurrently; the select either sees `done` (all closers finished
and did so before the 5-second deadline - the wall clock enters as the
oracle `finishBeforeDeadline`) and cancels the context logging "graceful",
or sees the deadline fire and cancels the context logging the forced
timeout. -/
def shutdownServices (closers : List (String × Option (Except String Unit)))
    (finishBeforeDeadline : Bool) : List ShutAction :=
  (closers.map closerEvents).flatten
  ++ (if allClosersReturn closers && finishBeforeDeadline then
        [ShutAction.ctxCancelled, ShutAction.logGraceful]
      else
        [ShutAction.ctxCancelled, ShutAction.logForcedTimeout])

/-- Embeds the tail of `waitForShutdownSignal` (cli/cmd/root.go:185-199):
after `shutdownServices` returns, the pid file is removed. -/
def waitForShutdownSignal (closers : List (String × Option (Except String Unit)))
    (finishBeforeDeadline : Bool) : List ShutAction :=
  shutdownServices closers finishBeforeDeadline ++ [ShutAction.pidFileRemoved]

/-- Provider behaviour whose `LoadConfig` and `Init` both succeed. -/
def svcOk (n : String) : SvcBehavior :=
  { svcName := n, loadConfigRes := fun _ => .ok (), initRes := .ok () }

/-- Provider behaviour whose `Init` fails with the raw error `e`. -/
def svcInitFail (n e : String) : SvcBehavior :=
  { svcName := n, loadConfigRes := fun _ => .ok (), initRes := .error e }

/-- Looking up the name just registered always yields the just-registered
factory. -/
theorem lookupStr_registerServ {α : Type} (reg : List (String × α)) (n : String) (f : α) :
    lookupStr (registerServ reg n f) n = some f := by
  induction reg with
  | nil => simp [registerServ, lookupStr]
  | cons kv rest ih =>
    by_cases h : kv.1 = n
    · simp [registerServ, h, lookupStr]
    · simp [registerServ, h, lookupStr, ih]

/-- Unfolding lemma for `countKey` on a cons cell. -/
theorem countKey_cons {α : Type} (k : String) (v : α) (rest : List (String × α))
    (n : String) :
    countKey ((k, v) :: rest) n = (if k = n then 1 else 0) + countKey rest n := by
  by_cases h : k = n
  all_goals simp [countKey, List.filter_cons, h]
  all_goals omega

/-- Registering into a registry holding at most one binding for the name
leaves exactly one binding for the name. -/
theorem countKey_registerServ {α : Type} (reg : List (String × α)) (n : String) (f : α)
    (h : countKey reg n ≤ 1) : countKey (registerServ reg n f) n = 1 := by
  induction reg with
  | nil => simp [registerServ, countKey]
  | cons kv rest ih =>
    obtain ⟨k, v⟩ := kv
    rw [countKey_cons] at h
    by_cases hk : k = n
    · subst hk
      rw [if_pos rfl] at h
      have h0 : countKey rest k = 0 := by omega
      have hreg : registerServ ((k, v) :: rest) k f = (k, f) :: rest := by
        simp [registerServ]
      rw [hreg, countKey_cons, if_pos rfl, h0]
    · rw [if_neg hk] at h
      have hle : countKey rest n ≤ 1 := by omega
      have hreg : registerServ ((k, v) :: rest) n f = (k, v) :: registerServ rest n f := by
        simp [registerServ, hk]
      rw [hreg, countKey_cons, if_neg hk, ih hle]

/-- C6: registering the same name twice is last-writer-wins: the second
factory silently overwrites the first, and the registry afterwards maps the
name to exactly one factory, the latest one registered. The hypothesis is
the Go-map invariant that a name holds at most one binding. -/
theorem registry_last_writer_wins {α : Type} (reg : List (String × α))
    (n : String) (f1 f2 : α) (hwf : countKey reg n ≤ 1) :
    lookupStr (serviceList (registerServ (registerServ reg n f1) n f2)) n = some f2
    ∧ countKey (serviceList (registerServ (registerServ reg n f1) n f2)) n = 1 := by
  refine ⟨lookupStr_registerServ _ n f2, ?_⟩
  have h1 : countKey (registerServ reg n f1) n = 1 := countKey_registerServ reg n f1 hwf
  exact countKey_registerServ _ n f2 (by omega)

/-- Witness for C6 at a concrete registry. -/
theorem registry_last_writer_wins_witness :
    countKey ([("FileSystem", 7)] : List (String × Nat)) "Browser" ≤ 1
    ∧ (lookupStr (serviceList (registerServ (registerServ [("FileSystem", 7)] "Browser" 1) "Browser" 2)) "Browser" = some 2
       ∧ countKey (serviceList (registerServ (registerServ [("FileSystem", 7)] "Browser" 1) "Browser" 2)) "Browser" = 1) :=
  ⟨by decide, registry_last_writer_wins [("FileSystem", 7)] "Browser" 1 2 (by decide)⟩

/-- C1: evidence of the module-selection defect. With the flag default
"all" the registry {Alpha, Beta} yields no constructed provider at all
(Split("all", ",") = ["all"] matches no provider name), while the module
string "Browser" - the only value the code exempts from splitting - makes
the module list empty and so constructs every registered provider, here
both Alpha and Beta. -/
theorem module_selection_code_bug :
    initServices "all" [("Alpha", .ok (svcOk "Alpha")), ("Beta", .ok (svcOk "Beta"))] none
      = ([], .ok [])
    ∧ initServices "Browser" [("Alpha", .ok (svcOk "Alpha")), ("Beta", .ok (svcOk "Beta"))] none
      = ([.constructed "Alpha", .initOk "Alpha", .constructed "Beta", .initOk "Beta"],
         .ok [svcOk "Alpha", svcOk "Beta"]) :=
  ⟨rfl, rfl⟩

/-- C3: evidence that `BrowserServer.Close` is not safe after a partial
`Init`. When `Init` returned at the `initBrowser` failure - before the
cancel functions are assigned - `Close` hits a nil `context.CancelFunc`
and panics instead of returning an error value or nil. -/
theorem browser_close_nil_cancel_panics :
    (browserInit newBrowserState (.error "stat failed") (.ok ())).2
      = .error "failed to initialize browser: stat failed"
    ∧ browserClose (browserInit newBrowserState (.error "stat failed") (.ok ())).1 (.ok ())
      = .panicked "runtime error: invalid memory address or nil pointer dereference"
    ∧ browserClose newBrowserState (.ok ())
      = .panicked "runtime error: invalid memory address or nil pointer dereference" :=
  ⟨rfl, rfl, rfl⟩

/-- C9: `Config()` never fails: on a marshal error it returns the
empty-object representation "\x7b\x7d", and on success the serialized
snapshot, for every configuration state. -/
theorem config_snapshot_never_fails :
    (∀ e : String, browserServerConfigStr (.error e) = "\x7b\x7d")
    ∧ (∀ s : String, browserServerConfigStr (.ok s) = s) :=
  ⟨fun _ => rfl, fun _ => rfl⟩

/-- C10: the base `MLService.LoadConfig` never returns nil: it either
returns the merge error, or reaches `MoLingConfig.Check`, which
unconditionally panics with "not implemented yet" - in particular on the
empty map, whose merge always succeeds. -/
theorem base_loadConfig_never_ok :
    (∀ (cfg : MoLingConfigData) (jsonData : List (String × Json)),
        (mlServiceLoadConfig cfg jsonData).isOk = false)
    ∧ (∀ cfg : MoLingConfigData,
        mlServiceLoadConfig cfg [] = .panicked "not implemented yet") := by
  constructor
  · intro cfg jsonData
    unfold mlServiceLoadConfig
    cases mergeJSONToStruct cfg jsonData with
    | error e => rfl
    | ok c => rfl
  · intro cfg
    rfl

/-- Processing a registry whose prefix fully succeeded continues with the
remainder: the events and services of the prefix are prepended, and the
final verdict is the verdict of the remainder. -/
theorem initServicesGo_append (module : String) (cfg : Option (List (String × Json)))
    (pre rest : List (String × Except String SvcBehavior))
    (evs : List InitEvent) (svcs : List SvcBehavior)
    (hpre : initServicesGo module cfg pre = (evs, .ok svcs)) :
    initServicesGo module cfg (pre ++ rest)
      = (evs ++ (initServicesGo module cfg rest).1,
         match (initServicesGo module cfg rest).2 with
         | .error e => .error e
         | .ok s2 => .ok (svcs ++ s2)) := by
  induction pre generalizing evs svcs with
  | nil =>
    simp only [initServicesGo] at hpre
    injection hpre with h1 h2
    injection h2 with h2
    subst h1
    subst h2
    rcases hres : initServicesGo module cfg rest with ⟨ev2, r2⟩
    cases r2 <;> simp [hres]
  | cons hd tl ih =>
    obtain ⟨name, factory⟩ := hd
    by_cases hsel : moduleSelects module name = true
    · rcases hsing : initSingleService name factory cfg with ⟨ev1, r1⟩
      simp only [initServicesGo, hsel, if_true, hsing] at hpre
      cases r1 with
      | error e => simp at hpre
      | ok svc =>
        rcases htl : initServicesGo module cfg tl with ⟨ev2, r2⟩
        simp only [htl] at hpre
        cases r2 with
        | error e => simp at hpre
        | ok s2 =>
          simp only [] at hpre
          injection hpre with h1 h2
          injection h2 with h2
          subst h1
          subst h2
          have ihr := ih ev2 s2 htl
          rcases hres : initServicesGo module cfg rest with ⟨ev3, r3⟩
          rw [hres] at ihr
          cases r3 with
          | error e3 =>
            simp only [] at ihr
            simp only [List.cons_append, initServicesGo, hsel, if_true, hsing,
              List.append_eq, ihr, hres, List.append_assoc]
          | ok s3 =>
            simp only [] at ihr
            simp only [List.cons_append, initServicesGo, hsel, if_true, hsing,
              List.append_eq, ihr, hres, List.append_assoc]
    · simp only [List.cons_append, initServicesGo, hsel, if_false,
        Bool.false_eq_true] at hpre ⊢
      exact ih evs svcs hpre

/-- A selected provider whose single-service startup fails makes the walk
stop at it and return its error: the providers after it are never looked
at. -/
theorem initServicesGo_cons_error (module : String) (cfg : Option (List (String × Json)))
    (name : String) (factory : Except String SvcBehavior)
    (post : List (String × Except String SvcBehavior))
    (evB : List InitEvent) (msg : String)
    (hsel : moduleSelects module name = true)
    (hfail : initSingleService name factory cfg = (evB, .error msg)) :
    initServicesGo module cfg ((name, factory) :: post) = (evB, .error msg) := by
  simp only [initServicesGo, hsel, if_true]
  rw [hfail]

/-- C2 counterexample: with provider Alpha succeeding and provider Beta
whose `Init` returns the raw error "boom", the error arriving at the
process entry point is the wrapped string, not B's error "boom" itself, so
the error is not propagated unchanged. -/
theorem startup_error_wrapped_counterexample :
    processStartup "Alpha,Beta"
        [("Alpha", .ok (svcOk "Alpha")), ("Beta", .ok (svcInitFail "Beta" "boom"))] none
      = .error "failed to initialize service Beta: boom"
    ∧ (("failed to initialize service Beta: boom" : String) == "boom") = false :=
  ⟨rfl, by decide⟩

/-- C2 (amended): startup is fail-fast. If every provider before B
succeeded and B - a selected provider - fails (in its factory, LoadConfig
or Init), the orchestrator stops at B: the run's outcome does not depend on
the providers after B at all (they are neither constructed nor initialized),
and the error produced at B (B's own error wrapped with the failing phase
and service name) reaches the process entry point unchanged. -/
theorem startup_failfast_amended (module : String) (cfg : Option (List (String × Json)))
    (pre post : List (String × Except String SvcBehavior))
    (bName : String) (bFac : Except String SvcBehavior)
    (evs : List InitEvent) (svcs : List SvcBehavior)
    (evB : List InitEvent) (msg : String)
    (hpre : initServicesGo module cfg pre = (evs, .ok svcs))
    (hsel : moduleSelects module bName = true)
    (hfail : initSingleService bName bFac cfg = (evB, .error msg)) :
    initServices module (pre ++ (bName, bFac) :: post) cfg = (evs ++ evB, .error msg)
    ∧ processStartup module (pre ++ (bName, bFac) :: post) cfg = .error msg := by
  have hstep := initServicesGo_cons_error module cfg bName bFac post evB msg hsel hfail
  have happ := initServicesGo_append module cfg pre ((bName, bFac) :: post) evs svcs hpre
  rw [hstep] at happ
  refine ⟨happ, ?_⟩
  simp [processStartup, initServices, happ]

/-- Witness for C2 (amended) at a concrete registry: Alpha succeeds, Beta
fails with "boom", Gamma sits after Beta and is never constructed. -/
theorem startup_failfast_amended_witness :
    initServicesGo "Alpha,Beta,Gamma" none [("Alpha", .ok (svcOk "Alpha"))]
      = ([.constructed "Alpha", .initOk "Alpha"], .ok [svcOk "Alpha"])
    ∧ moduleSelects "Alpha,Beta,Gamma" "Beta" = true
    ∧ initServices "Alpha,Beta,Gamma"
        [("Alpha", .ok (svcOk "Alpha")), ("Beta", .ok (svcInitFail "Beta" "boom")),
         ("Gamma", .ok (svcOk "Gamma"))] none
      = ([.constructed "Alpha", .initOk "Alpha", .constructed "Beta"],
         .error "failed to initialize service Beta: boom")
    ∧ processStartup "Alpha,Beta,Gamma"
        [("Alpha", .ok (svcOk "Alpha")), ("Beta", .ok (svcInitFail "Beta" "boom")),
         ("Gamma", .ok (svcOk "Gamma"))] none
      = .error "failed to initialize service Beta: boom" := by
  have h := startup_failfast_amended "Alpha,Beta,Gamma" none
    [("Alpha", .ok (svcOk "Alpha"))] [("Gamma", .ok (svcOk "Gamma"))]
    "Beta" (.ok (svcInitFail "Beta" "boom"))
    [.constructed "Alpha", .initOk "Alpha"] [svcOk "Alpha"]
    [.constructed "Beta"] "failed to initialize service Beta: boom"
    rfl rfl rfl
  exact ⟨rfl, rfl, h.1, h.2⟩

/-- Every closer goroutine first issues the `Close()` call. -/
theorem closeIssued_mem_closerEvents (n : String) (b : Option (Except String Unit)) :
    ShutAction.closeIssued n ∈ closerEvents (n, b) := by
  cases b with
  | none => simp [closerEvents]
  | some r => cases r <;> simp [closerEvents]

/-- Events of a member closer are among the shutdown events. -/
theorem closerEvents_sub_shutdown (closers : List (String × Option (Except String Unit)))
    (fast : Bool) (nb : String × Option (Except String Unit)) (hmem : nb ∈ closers)
    (a : ShutAction) (ha : a ∈ closerEvents nb) :
    a ∈ shutdownServices closers fast := by
  apply List.mem_append_left
  exact List.mem_flatten.mpr ⟨closerEvents nb, List.mem_map_of_mem _ hmem, ha⟩

/-- C4: shutdown is bounded and convergent. Every closer in the set has its
`Close()` issued; when all closers finish before the deadline the
orchestrator takes the graceful branch, and when some `Close()` never
returns it takes the forced branch once the deadline elapses; both
branches cancel the shared context and then remove the pid file as the
final actions before exit. -/
theorem shutdown_bounded_convergent (closers : List (String × Option (Except String Unit)))
    (fast : Bool) :
    (∀ n b, (n, b) ∈ closers →
        ShutAction.closeIssued n ∈ waitForShutdownSignal closers fast)
    ∧ ((allClosersReturn closers && fast) = true →
        waitForShutdownSignal closers fast
          = (closers.map closerEvents).flatten
            ++ [ShutAction.ctxCancelled, ShutAction.logGraceful, ShutAction.pidFileRemoved])
    ∧ (∀ n, (n, none) ∈ closers →
        waitForShutdownSignal closers fast
          = (closers.map closerEvents).flatten
            ++ [ShutAction.ctxCancelled, ShutAction.logForcedTimeout,
                ShutAction.pidFileRemoved]) := by
  refine ⟨?_, ?_, ?_⟩
  · intro n b hmem
    apply List.mem_append_left
    exact closerEvents_sub_shutdown closers fast (n, b) hmem _
      (closeIssued_mem_closerEvents n b)
  · intro hcond
    simp [waitForShutdownSignal, shutdownServices, hcond]
  · intro n hmem
    have hall : allClosersReturn closers = false := by
      cases hv : allClosersReturn closers with
      | false => rfl
      | true =>
        have := List.all_eq_true.mp hv (n, none) hmem
        simp at this
    simp [waitForShutdownSignal, shutdownServices, hall]

/-- Witness for C4 at a concrete closer set containing a hung closer. -/
theorem shutdown_bounded_convergent_witness :
    (("B", (none : Option (Except String Unit)))
        ∈ [("A", some (Except.ok ())), ("B", (none : Option (Except String Unit)))])
    ∧ waitForShutdownSignal
        [("A", some (Except.ok ())), ("B", (none : Option (Except String Unit)))] true
      = [ShutAction.closeIssued "A", ShutAction.closeLoggedOk "A",
         ShutAction.closeIssued "B", ShutAction.ctxCancelled,
         ShutAction.logForcedTimeout, ShutAction.pidFileRemoved] := by
  have h := (shutdown_bounded_convergent
    [("A", some (Except.ok ())), ("B", (none : Option (Except String Unit)))] true).2.2
    "B" (by simp)
  exact ⟨by simp, by rw [h]; rfl⟩

/-- C5: shutdown is isolating. If closer A returns an error and closer B
returns nil, B's closure still completes and is logged as successful, and
A's error is only logged per-provider; neither outcome disturbs the other's
events. -/
theorem shutdown_isolating (closers : List (String × Option (Except String Unit)))
    (fast : Bool) (a b ea : String)
    (ha : (a, some (Except.error ea)) ∈ closers)
    (hb : (b, some (Except.ok ())) ∈ closers) :
    ShutAction.closeLoggedOk b ∈ shutdownServices closers fast
    ∧ ShutAction.closeLoggedErr a ea ∈ shutdownServices closers fast := by
  constructor
  · exact closerEvents_sub_shutdown closers fast _ hb _ (by simp [closerEvents])
  · exact closerEvents_sub_shutdown closers fast _ ha _ (by simp [closerEvents])

/-- Witness for C5 at a concrete closer pair. -/
theorem shutdown_isolating_witness :
    (("A", some (Except.error "disk")) ∈
        [("A", some (Except.error "disk")), ("B", some (Except.ok ()))])
    ∧ (("B", some (Except.ok ())) ∈
        [("A", some (Except.error "disk")), ("B", some (Except.ok ()))])
    ∧ ShutAction.closeLoggedOk "B"
        ∈ shutdownServices [("A", some (Except.error "disk")), ("B", some (Except.ok ()))] true
    ∧ ShutAction.closeLoggedErr "A" "disk"
        ∈ shutdownServices [("A", some (Except.error "disk")), ("B", some (Except.ok ()))] true := by
  have h := shutdown_isolating
    [("A", some (Except.error "disk")), ("B", some (Except.ok ()))] true
    "A" "B" "disk" (by simp) (by simp)
  exact ⟨by simp, by simp, h.1, h.2⟩

/-- C7: a provider whose name has no configuration section never has its
`LoadConfig` invoked during startup, and the constructor-default browser
configuration (Timeout 30, URLTimeout 10, SelectorQueryTimeout 20, empty
PromptFile) passes `Check()` for every filesystem state. -/
theorem no_config_section_defaults (serviceType : String)
    (factory : Except String SvcBehavior) (cfg : Option (List (String × Json)))
    (hnone : configLookupSection cfg serviceType = none) :
    (∀ n, InitEvent.loadConfigCalled n ∉ (initSingleService serviceType factory cfg).1)
    ∧ ∀ (fs : String → Option String) (tmp : String),
        BrowserConfig.check fs (newBrowserConfig tmp)
          = .ok { newBrowserConfig tmp with prompt := browserPromptDefault } := by
  constructor
  · intro n
    cases factory with
    | error e => simp [initSingleService]
    | ok svc =>
      simp only [initSingleService, hnone]
      cases svc.initRes <;> simp
  · intro fs tmp
    rfl

/-- Witness for C7 at a concrete configuration lacking a Browser section. -/
theorem no_config_section_defaults_witness :
    configLookupSection (some [("FileSystem", Json.obj [])]) "Browser" = none
    ∧ InitEvent.loadConfigCalled "Browser"
        ∉ (initSingleService "Browser" (.ok (svcOk "Browser"))
            (some [("FileSystem", Json.obj [])])).1
    ∧ BrowserConfig.check (fun _ => none) (newBrowserConfig "/tmp/data")
        = .ok { newBrowserConfig "/tmp/data" with prompt := browserPromptDefault } :=
  ⟨rfl,
   (no_config_section_defaults "Browser" (.ok (svcOk "Browser"))
      (some [("FileSystem", Json.obj [])]) rfl).1 "Browser",
   (no_config_section_defaults "Browser" (.ok (svcOk "Browser"))
      (some [("FileSystem", Json.obj [])]) rfl).2 (fun _ => none) "/tmp/data"⟩

/-- Mapping to a constant kind yields a replicate list of that kind. -/
theorem map_kind_const {β : Type} (l : List β) (f : β → LoadAction) (c : Nat)
    (hf : ∀ x, loadKind (f x) = c) :
    (l.map f).map loadKind = List.replicate l.length c := by
  induction l with
  | nil => rfl
  | cons x xs ih =>
    simp only [List.map_cons, List.length_cons, List.replicate_succ, hf, ih]

/-- Kind sequence of the adapter's endpoint calls: a block of 0s
(resources), a block of 1s (templates), the single 2 (tools), a block of
3s (notification handlers), a block of 4s (prompts). -/
theorem loadService_kinds (srv : SvcCollections) :
    (loadService srv).map loadKind
      = List.replicate srv.resources.length 0
        ++ List.replicate srv.resourceTemplates.length 1
        ++ [2]
        ++ List.replicate srv.notificationHandlers.length 3
        ++ List.replicate srv.prompts.length 4 := by
  simp only [loadService, List.map_append]
  rw [map_kind_const srv.resources (fun r => LoadAction.addResource r.1) 0 (fun _ => rfl),
    map_kind_const srv.resourceTemplates (fun rt => LoadAction.addResourceTemplate rt.1) 1
      (fun _ => rfl),
    map_kind_const srv.notificationHandlers (fun n => LoadAction.addNotificationHandler n.1) 3
      (fun _ => rfl),
    map_kind_const srv.prompts (fun p => LoadAction.addPromptTo p) 4 (fun _ => rfl)]
  rfl

/-- Replicate lists are sorted under ≤. -/
theorem pairwise_le_replicate (n c : Nat) :
    (List.replicate n c).Pairwise (fun a b : Nat => a ≤ b) := by
  induction n with
  | zero => simp
  | succ m ih =>
    rw [List.replicate_succ, List.pairwise_cons]
    exact ⟨fun y hy => le_of_eq (List.eq_of_mem_replicate hy).symm, ih⟩

/-- Appending a block bounded above by `c` to a block bounded below by `c`
preserves sortedness. -/
theorem pairwise_le_of_mem_bound (l1 l2 : List Nat) (c : Nat)
    (h1 : ∀ x ∈ l1, x ≤ c) (h2 : ∀ y ∈ l2, c ≤ y)
    (p1 : l1.Pairwise (fun a b : Nat => a ≤ b))
    (p2 : l2.Pairwise (fun a b : Nat => a ≤ b)) :
    (l1 ++ l2).Pairwise (fun a b : Nat => a ≤ b) :=
  List.pairwise_append.mpr ⟨p1, p2, fun x hx y hy => le_trans (h1 x hx) (h2 y hy)⟩

/-- The kind shape of `loadService` is sorted. -/
theorem sorted_kind_shape (n0 n1 n3 n4 : Nat) :
    ((List.replicate n0 0
      ++ (List.replicate n1 1
      ++ ([2] ++ (List.replicate n3 3 ++ List.replicate n4 4)))) : List Nat).Pairwise
        (fun a b : Nat => a ≤ b) := by
  apply pairwise_le_of_mem_bound _ _ 0
  · intro x hx
    exact le_of_eq (List.eq_of_mem_replicate hx)
  · intro y _
    exact Nat.zero_le y
  · exact pairwise_le_replicate n0 0
  · apply pairwise_le_of_mem_bound _ _ 1
    · intro x hx
      exact le_of_eq (List.eq_of_mem_replicate hx)
    · intro y hy
      simp only [List.mem_append, List.mem_singleton, List.mem_replicate] at hy
      omega
    · exact pairwise_le_replicate n1 1
    · apply pairwise_le_of_mem_bound _ _ 2
      · intro x hx
        simp only [List.mem_singleton] at hx
        omega
      · intro y hy
        simp only [List.mem_append, List.mem_replicate] at hy
        omega
      · simp
      · apply pairwise_le_of_mem_bound _ _ 3
        · intro x hx
          exact le_of_eq (List.eq_of_mem_replicate hx)
        · intro y hy
          have := List.eq_of_mem_replicate hy
          omega
        · exact pairwise_le_replicate n3 3
        · exact pairwise_le_replicate n4 4

/-- Appending call sequences appends their prompt projections. -/
theorem promptsAdded_append (l1 l2 : List LoadAction) :
    promptsAdded (l1 ++ l2) = promptsAdded l1 ++ promptsAdded l2 := by
  simp [promptsAdded]

/-- Resource copies contribute no prompt. -/
theorem promptsAdded_resources (l : List (String × String)) :
    promptsAdded (l.map (fun r => LoadAction.addResource r.1)) = [] := by
  induction l with
  | nil => rfl
  | cons x xs ih =>
    rw [List.map_cons]
    simp only [promptsAdded, List.filterMap_cons] at ih ⊢
    rw [ih]

/-- Resource-template copies contribute no prompt. -/
theorem promptsAdded_templates (l : List (String × String)) :
    promptsAdded (l.map (fun rt => LoadAction.addResourceTemplate rt.1)) = [] := by
  induction l with
  | nil => rfl
  | cons x xs ih =>
    rw [List.map_cons]
    simp only [promptsAdded, List.filterMap_cons] at ih ⊢
    rw [ih]

/-- Notification-handler copies contribute no prompt. -/
theorem promptsAdded_notifs (l : List (String × String)) :
    promptsAdded (l.map (fun n => LoadAction.addNotificationHandler n.1)) = [] := by
  induction l with
  | nil => rfl
  | cons x xs ih =>
    rw [List.map_cons]
    simp only [promptsAdded, List.filterMap_cons] at ih ⊢
    rw [ih]

/-- The prompt copies are exactly the provider's prompt list, in order. -/
theorem promptsAdded_prompts (l : List String) :
    promptsAdded (l.map (fun p => LoadAction.addPromptTo p)) = l := by
  induction l with
  | nil => rfl
  | cons x xs ih =>
    rw [List.map_cons]
    simp only [promptsAdded, List.filterMap_cons] at ih ⊢
    rw [ih]

/-- The endpoint receives exactly the provider's prompts, in order. -/
theorem promptsAdded_loadService (srv : SvcCollections) :
    promptsAdded (loadService srv) = srv.prompts := by
  rw [loadService]
  rw [promptsAdded_append, promptsAdded_append, promptsAdded_append, promptsAdded_append]
  rw [promptsAdded_resources, promptsAdded_templates, promptsAdded_notifs,
    promptsAdded_prompts]
  simp [promptsAdded]

/-- A sequence of `AddPrompt` calls appends the prompts in call order. -/
theorem registerPrompts_prompts (c : SvcCollections) (ps : List String) :
    (registerPrompts c ps).prompts = c.prompts ++ ps := by
  induction ps generalizing c with
  | nil => simp [registerPrompts]
  | cons p rest ih =>
    show (registerPrompts (addPrompt c p) rest).prompts = _
    rw [ih (addPrompt c p)]
    simp [addPrompt]

/-- C8: the adapter copies the capability collections into the endpoint in
the fixed order Resources, Resource Templates, Tools, Notification
Handlers, Prompts (the kind index along the emitted call sequence never
decreases), and the prompts reach the endpoint in exactly the order the
provider registered them with `AddPrompt`. -/
theorem loadService_fixed_order (srv : SvcCollections) (ps : List String) :
    ((loadService srv).map loadKind).Pairwise (fun a b : Nat => a ≤ b)
    ∧ promptsAdded (loadService (registerPrompts newMLServiceCollections ps)) = ps := by
  constructor
  · rw [loadService_kinds srv]
    simp only [List.append_assoc]
    exact sorted_kind_shape srv.resources.length srv.resourceTemplates.length
      srv.notificationHandlers.length srv.prompts.length
  · rw [promptsAdded_loadService, registerPrompts_prompts]
    rfl

end Moling
